import Mathlib

/-!
Verification of the Mood_Playlist pipeline: a shallow embedding of the
mood-inference and recommendation code (language detection, label
normalization, lexicon prediction, resolution policy, recommender,
service orchestration), with theorems settling the specification claims.

Python strings are modelled as Lean `String`, Python dicts appearing in
the catalog as association lists `List (String × String)`, dicts with a
fixed key set as Lean structures or ordered association lists (Python
dicts iterate in insertion order), and fallible operations (such as the
`Recommendation(**item)` dataclass construction, which raises `TypeError`
on a key mismatch) as `Option`-returning functions.  External
collaborators (the statistical language detector, the transformer model,
`random.shuffle`) are passed in as explicit function parameters.
-/

/-! ## String helpers (Python `str.strip`, `in` substring test) -/

/-- Whitespace characters stripped by Python `str.strip()` (ASCII subset). -/
def isPySpace (c : Char) : Bool :=
  c.toNat = 32 || c.toNat = 9 || c.toNat = 10 || c.toNat = 13 ||
  c.toNat = 11 || c.toNat = 12

/-- Python `str.strip()`: drop leading and trailing whitespace. -/
def pyStrip (s : String) : String :=
  ⟨((s.data.dropWhile isPySpace).reverse.dropWhile isPySpace).reverse⟩

/-- Python `str.lower()`: lowercase each character. -/
def pyLower (s : String) : String := ⟨s.data.map Char.toLower⟩

/-- `listPre w t`: `w` is a leading sequence of `t` (character lists). -/
def listPre : List Char → List Char → Bool
  | [], _ => true
  | _ :: _, [] => false
  | a :: as, b :: bs => a == b && listPre as bs

/-- `listSub w t`: `w` occurs contiguously somewhere in `t`. -/
def listSub (w : List Char) : List Char → Bool
  | [] => listPre w []
  | c :: ts => listPre w (c :: ts) || listSub w ts

/-- Python `w in txt` for strings: substring containment. -/
def subOcc (w txt : String) : Bool := listSub w.data txt.data

/-! ## mapping.py -/

/-- `SUPPORTED_MOODS` from `mood_playlist/__init__.py` (a set in Python;
kept as a list, membership is what matters). -/
def SUPPORTED_MOODS : List String :=
  ["joy", "sadness", "anger", "fear", "neutral", "excitement"]

/-- `LABEL_MAP` from mapping.py, in declaration order (Python dicts keep
insertion order, which the substring fallback relies on). -/
def LABEL_MAP : List (String × String) :=
  [("joy", "joy"), ("happy", "joy"), ("happiness", "joy"), ("love", "joy"),
   ("cheerful", "joy"), ("delighted", "joy"), ("admiration", "joy"),
   ("sad", "sadness"), ("sadness", "sadness"), ("grief", "sadness"),
   ("sorrow", "sadness"), ("disappointment", "sadness"),
   ("anger", "anger"), ("angry", "anger"), ("rage", "anger"),
   ("hatred", "anger"), ("hate", "anger"), ("annoyance", "anger"),
   ("furious", "anger"),
   ("fear", "fear"), ("scared", "fear"), ("frightened", "fear"),
   ("anxious", "fear"), ("nervous", "fear"),
   ("excitement", "excitement"), ("excited", "excitement"),
   ("surprise", "excitement"), ("surprised", "excitement"),
   ("wonder", "excitement"), ("amazed", "excitement"),
   ("enthusiasm", "excitement"),
   ("neutral", "neutral"), ("no emotion", "neutral"), ("other", "neutral")]

/-- `map_label_to_mood(language, label)` from mapping.py.  The `language`
argument is accepted but never used by the body. -/
def map_label_to_mood (language label : String) : String :=
  let labelNorm := pyLower (pyStrip label)
  match List.lookup labelNorm LABEL_MAP with
  | some v => v
  | none =>
    match LABEL_MAP.find? (fun p => subOcc p.1 labelNorm) with
    | some p => p.2
    | none => "neutral"

/-! ## emotion_classifier.py: lexicons and the lexicon predictor -/

/-- `ENGLISH_LEXICON`, in declaration order. -/
def ENGLISH_LEXICON : List (String × List String) :=
  [("joy", ["happy", "joy", "grateful", "great", "awesome", "good", "love"]),
   ("sadness", ["sad", "down", "blue", "upset", "depressed", "cry"]),
   ("anger", ["angry", "mad", "furious", "irritated", "rage", "hate"]),
   ("fear", ["afraid", "scared", "anxious", "worried", "nervous"]),
   ("neutral", ["ok", "fine", "meh", "normal"]),
   ("excitement", ["excited", "hyped", "stoked", "thrilled", "pumped"])]

/-- `PERSIAN_LEXICON`, in declaration order. -/
def PERSIAN_LEXICON : List (String × List String) :=
  [("joy", ["خوشحال", "شاد", "خوب", "عالی", "راضی", "عشق", "خنده"]),
   ("sadness", ["غمگین", "ناراحت", "بی حوصله", "دلگیر", "گریه", "غصه", "بدبخت"]),
   ("anger", ["عصبانی", "خشم", "حرص", "کلافه", "متنفر", "دعوا"]),
   ("fear", ["می ترسم", "ترس", "استرس", "نگران", "وحشت"]),
   ("neutral", ["معمولی", "بد نیست", "اوکی", "نرمال", "سلام"]),
   ("excitement", ["هیجان", "متحمس", "ذوق", "انرژی", "باحال"])]

/-- Score of one mood row: how many of its keywords occur in `txt`
(the loop `for word in keywords: if word in txt: scores[label] += 1`). -/
def countHits (txt : String) (kws : List String) : Nat :=
  (kws.filter (fun w => subOcc w txt)).length

/-- Python `max(items, key=lambda x: x[1])` over a nonempty association
list: keeps the current best and replaces it only on a strictly greater
score, so the first maximal entry wins. -/
def pyMaxBySnd (x : String × Nat) (l : List (String × Nat)) : String × Nat :=
  l.foldl (fun b a => if b.2 < a.2 then a else b) x

/-- `TextEmotionClassifier._lexicon_label(text, language)`. -/
def lexicon_label (text language : String) : String :=
  let txt := pyLower text
  let lexicon := if language = "fa" then PERSIAN_LEXICON else ENGLISH_LEXICON
  let scores := lexicon.map (fun p => (p.1, countHits txt p.2))
  match scores with
  | [] => "neutral"
  | x :: rest =>
    let best := pyMaxBySnd x rest
    if best.2 = 0 then "neutral" else best.1

/-! ## emotion_classifier.py: resolution policy and predict -/

/-- `TextEmotionClassifier._resolve_with_lexicon`. -/
def resolve_with_lexicon (tfLabel tfMood lexLabel lexMood : String) :
    String × String × String :=
  if tfMood = lexMood then (tfLabel, tfMood, "transformer")
  else if (lexMood = "anger" ∨ lexMood = "sadness" ∨ lexMood = "fear") ∧
          (tfMood = "neutral" ∨ tfMood = "joy" ∨ tfMood = "excitement") then
    (lexLabel, lexMood, "lexicon_override_neg")
  else if (lexMood = "joy" ∨ lexMood = "excitement") ∧
          (tfMood = "sadness" ∨ tfMood = "anger" ∨ tfMood = "fear" ∨
           tfMood = "neutral") then
    (lexLabel, lexMood, "lexicon_override_pos")
  else (tfLabel, tfMood, "transformer")

/-- A `Prediction` record `{label, mood, source}`. -/
structure Prediction where
  label : String
  mood : String
  source : String
deriving DecidableEq, Repr

/-- `TextEmotionClassifier.predict(text, language)`.  The transformer
path is abstracted by `tf : String → String → Option String`: given the
language and the cleaned text it yields the resolved model label, or
`none` when model mode is off, no pipeline is loaded for the language,
or inference raised (all of which make the code fall back to lexicon). -/
def predict (tf : String → String → Option String)
    (text language : String) : Prediction :=
  let cleaned := pyStrip text
  if cleaned = "" then ⟨"neutral", "neutral", "fallback"⟩
  else
    let lexLabel := lexicon_label cleaned language
    let lexMood := map_label_to_mood language lexLabel
    match tf language cleaned with
    | some resolvedLabel =>
      let mood := map_label_to_mood language resolvedLabel
      let r := resolve_with_lexicon resolvedLabel mood lexLabel lexMood
      ⟨r.1, r.2.1, r.2.2⟩
    | none => ⟨lexLabel, lexMood, "lexicon"⟩

/-! ## language.py -/

/-- Arabic-script test `re.compile(r"[؀-ۿ]").search`. -/
def hasPersianChar (s : String) : Bool :=
  s.data.any (fun c => 0x600 ≤ c.toNat && c.toNat ≤ 0x6FF)

/-- `LanguageDetector.detect(text)`.  The statistical `langdetect.detect`
call is abstracted by `stat : String → Option String`, where `none`
models a raised `LangDetectException`. -/
def detect (stat : String → Option String) (text : String) : String :=
  let cleaned := pyStrip text
  if cleaned = "" then "en"
  else if hasPersianChar cleaned then "fa"
  else
    match stat cleaned with
    | none => "en"
    | some lang => if lang = "fa" ∨ lang = "en" then lang else "en"

/-! ## recommender.py -/

/-- A catalog entry is a JSON object: an association list of string
fields with the insertion order of the underlying Python dict (lookup
finds the first occurrence of a key). -/
abbrev Item := List (String × String)

/-- Python `item.get(k)`: `none` models the absent-key `None` result. -/
def pyGet (item : Item) (k : String) : Option String := List.lookup k item

/-- The `Recommendation` dataclass. -/
structure Recommendation where
  title : String
  creator : String
  type : String
  mood : String
  language : String
deriving DecidableEq, Repr

/-- `Recommendation(**item)`: succeeds exactly when `item` has the five
dataclass fields and nothing else; a missing or extra key raises
`TypeError` in Python, modelled as `none`. -/
def mkRecommendation (item : Item) : Option Recommendation :=
  match pyGet item "title", pyGet item "creator", pyGet item "type",
        pyGet item "mood", pyGet item "language" with
  | some t, some c, some ty, some m, some l =>
    if item.length = 5 then some ⟨t, c, ty, m, l⟩ else none
  | _, _, _, _, _ => none

/-- Python `l[:n]` for an `int` bound `n`: a nonnegative bound takes the
first `n` elements, a negative bound drops the last `-n`. -/
def pySlice (l : List α) (n : Int) : List α :=
  if 0 ≤ n then l.take n.toNat else l.take (l.length - (-n).toNat)

/-- `Recommender.recommend(mood, media_type, limit, response_language)`.
`random.shuffle` is abstracted by the `shuffle` parameter (the design
notes call for an injected randomness source); a run of the Python code
corresponds to `shuffle` being some permutation.  `media_type = some ""`
models an empty string, which is falsy in `if media_type:` just like
`None`.  The `Recommendation(**item)` constructions can raise, hence the
`Option` result.  The successive `filtered` rebindings of the Python
body are split out as `recommendFiltered`: filter by (already coerced)
mood, then by truthy media type, then by a supported response
language. -/
def recommendFiltered (catalog : List Item) (mood : String)
    (mediaType : Option String) (responseLanguage : Option String) :
    List Item :=
  let f1 := catalog.filter (fun item => pyGet item "mood" == some mood)
  let f2 := match mediaType with
    | some mt => if mt = "" then f1
                 else f1.filter (fun item => pyGet item "type" == some mt)
    | none => f1
  match responseLanguage with
  | some rl => if rl = "fa" ∨ rl = "en" then
                 f2.filter (fun item => pyGet item "language" == some rl)
               else f2
  | none => f2

def recommend (shuffle : List Item → List Item) (catalog : List Item)
    (mood : String) (mediaType : Option String) (limit : Int)
    (responseLanguage : Option String) : Option (List Recommendation) :=
  let mood := if mood ∈ SUPPORTED_MOODS then mood else "neutral"
  let picks :=
    pySlice (shuffle (recommendFiltered catalog mood mediaType responseLanguage))
      limit
  picks.mapM mkRecommendation

/-- `moods[m] = moods.get(m, 0) + 1` on a dict kept as an ordered
association list: increment in place, or append a fresh key. -/
def bump : List (String × Nat) → String → List (String × Nat)
  | [], k => [(k, 1)]
  | (k', v) :: rest, k =>
    if k' = k then (k', v + 1) :: rest else (k', v) :: bump rest k

/-- `Recommender.get_stats()`: the pair of the mood-count dict and the
language-count dict. -/
def get_stats (catalog : List Item) :
    List (String × Nat) × List (String × Nat) :=
  catalog.foldl
    (fun acc item =>
      (bump acc.1 ((pyGet item "mood").getD "neutral"),
       bump acc.2 ((pyGet item "language").getD "en")))
    ([], [])

/-- Sum of the counts of a stats dict. -/
def sumVals (d : List (String × Nat)) : Nat := (d.map Prod.snd).sum

/-! ## service.py -/

/-- A `ServiceResult` record `{language, prediction, recommendations}`. -/
structure ServiceResult where
  language : String
  prediction : Prediction
  recommendations : List Recommendation
deriving DecidableEq, Repr

/-- `MoodService.analyze_and_recommend(text, media_type, limit,
response_language)`: detect language, classify, recommend.  `stat`, `tf`
and `shuffle` abstract the external collaborators as above; `catalog` is
the catalog the service was constructed with.  `none` models an
uncaught exception escaping to the caller. -/
def analyze_and_recommend (stat : String → Option String)
    (tf : String → String → Option String)
    (shuffle : List Item → List Item) (catalog : List Item)
    (text : String) (mediaType : Option String) (limit : Int)
    (responseLanguage : Option String) : Option ServiceResult :=
  let language := detect stat text
  let prediction := predict tf text language
  match recommend shuffle catalog prediction.mood mediaType limit
        responseLanguage with
  | some recs => some ⟨language, prediction, recs⟩
  | none => none

/-! ## Spec-side definitions and sample data -/

/-- Modelled from the spec, §4.3 / §8 (for claim C6 only): the lexicon
predictor described as returning the first mood, in the keyword table's
declaration order, whose keyword-hit count is maximal, and `neutral`
when that maximal count is zero.  This is the definition written from
the spec's words, to be compared with `lexicon_label` from the code. -/
def spec_lexicon_label (text language : String) : String :=
  let txt := pyLower text
  let lexicon := if language = "fa" then PERSIAN_LEXICON else ENGLISH_LEXICON
  let scores := lexicon.map (fun p => (p.1, countHits txt p.2))
  let m := (scores.map Prod.snd).foldl max 0
  if m = 0 then "neutral"
  else
    match scores.find? (fun p => p.2 == m) with
    | some p => p.1
    | none => "neutral"

/-- Maximum of the scores of `x :: l` (accumulator form, parallel to
`pyMaxBySnd`). -/
def maxSnd (x : String × Nat) (l : List (String × Nat)) : Nat :=
  l.foldl (fun m p => max m p.2) x.2

/-- A well-formed catalog entry used as concrete test data. -/
def sampleItem : Item :=
  [("title", "t"), ("creator", "c"), ("type", "song"),
   ("mood", "neutral"), ("language", "en")]

/-! ## Helper lemmas -/

theorem mem_dropWhile_of_not {p : α → Bool} {c : α} (hc : p c = false) :
    ∀ {l : List α}, c ∈ l → c ∈ l.dropWhile p := by
  intro l
  induction l with
  | nil => intro h; cases h
  | cons a l ih =>
    intro h
    rw [List.dropWhile_cons]
    split
    · rcases List.mem_cons.mp h with rfl | hm
      · simp_all
      · exact ih hm
    · exact h

theorem mem_pyStrip_of_not {c : Char} {s : String} (hc : isPySpace c = false)
    (hm : c ∈ s.data) : c ∈ (pyStrip s).data := by
  unfold pyStrip
  exact List.mem_reverse.mpr
    (mem_dropWhile_of_not hc (List.mem_reverse.mpr (mem_dropWhile_of_not hc hm)))

theorem lookup_mem_values [BEq α] :
    ∀ (l : List (α × β)) (a : α) (b : β),
      List.lookup a l = some b → b ∈ l.map Prod.snd := by
  intro l
  induction l with
  | nil => intro a b h; simp [List.lookup] at h
  | cons p rest ih =>
    intro a b h
    cases p with
    | mk k v =>
      rw [List.lookup_cons] at h
      split at h
      · cases h; simp
      · simpa using Or.inr (ih a b h)

theorem mapM_isSome {f : α → Option β} :
    ∀ {l : List α}, (∀ a ∈ l, (f a).isSome) → (l.mapM f).isSome := by
  intro l
  induction l with
  | nil => intro; rw [List.mapM_nil]; rfl
  | cons a l ih =>
    intro h
    rw [List.mapM_cons]
    have ha := h a (by simp)
    cases hfa : f a with
    | none => rw [hfa] at ha; cases ha
    | some b =>
      have hl := ih (fun x hx => h x (by simp [hx]))
      cases hml : l.mapM f with
      | none => rw [hml] at hl; cases hl
      | some bs => simp [hfa, hml]

theorem mapM_length {f : α → Option β} :
    ∀ {l : List α} {l' : List β}, l.mapM f = some l' → l'.length = l.length := by
  intro l
  induction l with
  | nil =>
    intro l' h
    rw [List.mapM_nil] at h
    cases h
    rfl
  | cons a l ih =>
    intro l' h
    rw [List.mapM_cons] at h
    cases hfa : f a with
    | none => rw [hfa] at h; simp at h
    | some b =>
      rw [hfa] at h
      cases hml : l.mapM f with
      | none => rw [hml] at h; simp at h
      | some bs =>
        rw [hml] at h
        simp at h
        simp [h.symm, ih hml]

theorem mapM_mem {f : α → Option β} :
    ∀ {l : List α} {l' : List β}, l.mapM f = some l' →
      ∀ b ∈ l', ∃ a ∈ l, f a = some b := by
  intro l
  induction l with
  | nil =>
    intro l' h
    rw [List.mapM_nil] at h
    cases h
    intro b hb
    cases hb
  | cons a l ih =>
    intro l' h b hb
    rw [List.mapM_cons] at h
    cases hfa : f a with
    | none => rw [hfa] at h; simp at h
    | some c =>
      rw [hfa] at h
      cases hml : l.mapM f with
      | none => rw [hml] at h; simp at h
      | some bs =>
        rw [hml] at h
        simp at h
        subst h
        rcases List.mem_cons.mp hb with rfl | hbs
        · exact ⟨a, by simp, hfa⟩
        · rcases ih hml b hbs with ⟨x, hx, hfx⟩
          exact ⟨x, by simp [hx], hfx⟩

theorem mem_pySlice {l : List α} {n : Int} {a : α} (h : a ∈ pySlice l n) :
    a ∈ l := by
  unfold pySlice at h
  split at h
  · exact (List.take_sublist _ _).mem h
  · exact (List.take_sublist _ _).mem h

theorem mem_recommendFiltered {catalog : List Item} {mood : String}
    {mt rl : Option String} {item : Item}
    (h : item ∈ recommendFiltered catalog mood mt rl) :
    item ∈ catalog ∧ pyGet item "mood" = some mood := by
  unfold recommendFiltered at h
  have h2 : item ∈ (match mt with
      | some m => if m = "" then
            catalog.filter (fun it => pyGet it "mood" == some mood)
          else (catalog.filter (fun it => pyGet it "mood" == some mood)).filter
            (fun it => pyGet it "type" == some m)
      | none => catalog.filter (fun it => pyGet it "mood" == some mood)) := by
    cases rl with
    | none => exact h
    | some r =>
      simp only at h
      split at h
      · exact (List.mem_filter.mp h).1
      · exact h
  have h1 : item ∈ catalog.filter (fun it => pyGet it "mood" == some mood) := by
    cases mt with
    | none => exact h2
    | some m =>
      simp only at h2
      split at h2
      · exact h2
      · exact (List.mem_filter.mp h2).1
  have := List.mem_filter.mp h1
  exact ⟨this.1, by simpa using this.2⟩

theorem mkRecommendation_mood {item : Item} {r : Recommendation}
    (h : mkRecommendation item = some r) : pyGet item "mood" = some r.mood := by
  unfold mkRecommendation at h
  split at h
  · next t c ty m l ht hc hty hm hl =>
    split at h
    · cases h; exact hm
    · cases h
  · cases h

/-! ## Claim theorems -/

/-- Claim C1: the resolution policy `_resolve_with_lexicon` returns the
transformer result when the two moods agree, the lexicon result with
source `lexicon_override_neg` when the lexicon mood is negative
(anger/sadness/fear) and the transformer mood is neutral/joy/excitement,
the lexicon result with source `lexicon_override_pos` when the lexicon
mood is joy/excitement and the transformer mood is
sadness/anger/fear/neutral, and the transformer result in every
remaining case. -/
theorem resolve_with_lexicon_policy (tl tm ll lm : String) :
    (tm = lm → resolve_with_lexicon tl tm ll lm = (tl, tm, "transformer")) ∧
    ((lm = "anger" ∨ lm = "sadness" ∨ lm = "fear") →
     (tm = "neutral" ∨ tm = "joy" ∨ tm = "excitement") →
     resolve_with_lexicon tl tm ll lm = (ll, lm, "lexicon_override_neg")) ∧
    ((lm = "joy" ∨ lm = "excitement") →
     (tm = "sadness" ∨ tm = "anger" ∨ tm = "fear" ∨ tm = "neutral") →
     resolve_with_lexicon tl tm ll lm = (ll, lm, "lexicon_override_pos")) ∧
    (tm ≠ lm →
     ¬((lm = "anger" ∨ lm = "sadness" ∨ lm = "fear") ∧
       (tm = "neutral" ∨ tm = "joy" ∨ tm = "excitement")) →
     ¬((lm = "joy" ∨ lm = "excitement") ∧
       (tm = "sadness" ∨ tm = "anger" ∨ tm = "fear" ∨ tm = "neutral")) →
     resolve_with_lexicon tl tm ll lm = (tl, tm, "transformer")) := by
  refine ⟨?_, ?_, ?_, ?_⟩
  · intro h
    unfold resolve_with_lexicon
    rw [if_pos h]
  · intro h1 h2
    have hne : tm ≠ lm := by
      rcases h1 with h | h | h <;> rcases h2 with g | g | g <;> simp [h, g]
    unfold resolve_with_lexicon
    rw [if_neg hne, if_pos ⟨h1, h2⟩]
  · intro h1 h2
    have hne : tm ≠ lm := by
      rcases h1 with h | h <;> rcases h2 with g | g | g | g <;> simp [h, g]
    have hng : ¬((lm = "anger" ∨ lm = "sadness" ∨ lm = "fear") ∧
        (tm = "neutral" ∨ tm = "joy" ∨ tm = "excitement")) := by
      rintro ⟨ha, -⟩
      rcases h1 with h | h <;> rcases ha with a | a | a <;> rw [h] at a <;>
        simp at a
    unfold resolve_with_lexicon
    rw [if_neg hne, if_neg hng, if_pos ⟨h1, h2⟩]
  · intro hne hng hpg
    unfold resolve_with_lexicon
    rw [if_neg hne, if_neg hng, if_neg hpg]

/-- Witness for C1 at a concrete input: lexicon sadness overrides a
transformer joy. -/
theorem resolve_with_lexicon_policy_witness :
    resolve_with_lexicon "joy" "joy" "sad" "sadness" =
      ("sad", "sadness", "lexicon_override_neg") :=
  (resolve_with_lexicon_policy "joy" "joy" "sad" "sadness").2.1
    (Or.inr (Or.inl rfl)) (Or.inr (Or.inl rfl))

/-- Claim C4: for every empty or whitespace-only text, `predict` returns
`{label: neutral, mood: neutral, source: fallback}`, for every language
and every transformer configuration. -/
theorem predict_blank (tf : String → String → Option String)
    (text language : String) (h : ∀ c ∈ text.data, isPySpace c = true) :
    predict tf text language = ⟨"neutral", "neutral", "fallback"⟩ := by
  have hstrip : pyStrip text = "" := by
    unfold pyStrip
    have h1 : text.data.dropWhile isPySpace = [] :=
      List.dropWhile_eq_nil_iff.mpr h
    rw [h1]
    rfl
  simp [predict, hstrip]

/-- Witness for C4 at a concrete whitespace-only text, with a
transformer that would have answered. -/
theorem predict_blank_witness :
    predict (fun _ _ => some "joy") " \t\n " "fa" =
      ⟨"neutral", "neutral", "fallback"⟩ :=
  predict_blank (fun _ _ => some "joy") " \t\n " "fa" (by decide)

/-- Claim C5: for every text containing a character in the Arabic-script
range U+0600–U+06FF, `detect` returns `"fa"` whatever the statistical
detector `stat` would say (the result is the same for every `stat`, so
the statistical routine cannot influence it). -/
theorem detect_persian (stat : String → Option String) (text : String)
    (h : ∃ c ∈ text.data, 0x600 ≤ c.toNat ∧ c.toNat ≤ 0x6FF) :
    detect stat text = "fa" := by
  rcases h with ⟨c, hmem, hlo, hhi⟩
  have hcsp : isPySpace c = false := by
    simp only [isPySpace, Bool.or_eq_false_iff, decide_eq_false_iff_not]
    omega
  have hcs : c ∈ (pyStrip text).data := mem_pyStrip_of_not hcsp hmem
  have hne : pyStrip text ≠ "" := by
    intro he
    rw [he] at hcs
    cases hcs
  have hcb : (0x600 ≤ c.toNat && c.toNat ≤ 0x6FF) = true := by
    simp only [Bool.and_eq_true, decide_eq_true_eq]
    exact ⟨hlo, hhi⟩
  have hper : hasPersianChar (pyStrip text) = true := by
    simp only [hasPersianChar, List.any_eq_true]
    exact ⟨c, hcs, hcb⟩
  simp only [detect]
  rw [if_neg hne, if_pos hper]

/-- Witness for C5: Persian greeting text, with a statistical detector
that would have said English. -/
theorem detect_persian_witness : detect (fun _ => some "en") "سلام" = "fa" :=
  detect_persian (fun _ => some "en") "سلام" ⟨'س', by decide, by decide⟩

/-- Claim C10: `map_label_to_mood` does not depend on its `language`
argument (the body never reads it): any two language values give the
same result on every label. -/
theorem map_label_to_mood_language_irrelevant (l1 l2 label : String) :
    map_label_to_mood l1 label = map_label_to_mood l2 label := rfl

/-- Every output of `map_label_to_mood` is one of the six supported
moods. -/
theorem map_label_to_mood_range (lang label : String) :
    map_label_to_mood lang label ∈ SUPPORTED_MOODS := by
  have hall : ∀ b ∈ LABEL_MAP.map Prod.snd, b ∈ SUPPORTED_MOODS := by decide
  simp only [map_label_to_mood]
  split
  · next v hv => exact hall v (lookup_mem_values _ _ _ hv)
  · split
    · next p hp =>
      exact hall p.2 (List.mem_map_of_mem Prod.snd
        (List.mem_of_find?_eq_some hp))
    · decide

/-- Claim C9: `map_label_to_mood` is idempotent: each of the six
canonical mood names is a fixed point, and consequently applying the
map twice is the same as applying it once, on every label. -/
theorem map_label_to_mood_idempotent :
    (∀ lang : String,
      map_label_to_mood lang "joy" = "joy" ∧
      map_label_to_mood lang "sadness" = "sadness" ∧
      map_label_to_mood lang "anger" = "anger" ∧
      map_label_to_mood lang "fear" = "fear" ∧
      map_label_to_mood lang "neutral" = "neutral" ∧
      map_label_to_mood lang "excitement" = "excitement") ∧
    (∀ lang label : String,
      map_label_to_mood lang (map_label_to_mood lang label) =
        map_label_to_mood lang label) := by
  constructor
  · intro lang
    exact ⟨rfl, rfl, rfl, rfl, rfl, rfl⟩
  · intro lang label
    have h := map_label_to_mood_range lang label
    simp only [SUPPORTED_MOODS, List.mem_cons, List.not_mem_nil, or_false]
      at h
    rcases h with h | h | h | h | h | h <;> rw [h] <;> rfl

/-- Counterexample to claim C2: a truthy `media_type` outside
`{song, movie}` is NOT coerced to unfiltered — `recommend` filters by
equality with it, here eliminating the only catalog item, whereas the
call without the filter returns that item. -/
theorem recommend_media_filter_not_unfiltered :
    recommend id [sampleItem] "neutral" (some "podcast") 6 none ≠
      recommend id [sampleItem] "neutral" none 6 none := by decide

/-- Claim C2 (amended): an unsupported `response_language` (anything
other than `"fa"`/`"en"`) is coerced to unfiltered — the result equals
the call without the language filter — and a falsy (empty) `media_type`
behaves like `None`; only a truthy unsupported `media_type` is instead
used as an equality filter. -/
theorem recommend_unsupported_filters (shuffle : List Item → List Item)
    (catalog : List Item) (mood : String) (mt : Option String)
    (limit : Int) (rl : Option String)
    (h1 : rl ≠ some "fa") (h2 : rl ≠ some "en") :
    (recommend shuffle catalog mood mt limit rl =
      recommend shuffle catalog mood mt limit none) ∧
    (recommend shuffle catalog mood (some "") limit rl =
      recommend shuffle catalog mood none limit rl) := by
  constructor
  · cases rl with
    | none => rfl
    | some s =>
      have hs : ¬(s = "fa" ∨ s = "en") := by
        rintro (rfl | rfl)
        · exact h1 rfl
        · exact h2 rfl
      simp only [recommend, recommendFiltered]
      rw [if_neg hs]
  · rfl

/-- Witness for the amended C2 at a concrete unsupported language. -/
theorem recommend_unsupported_filters_witness :
    (recommend id [sampleItem] "neutral" none 6 (some "de") =
      recommend id [sampleItem] "neutral" none 6 none) ∧
    (recommend id [sampleItem] "neutral" (some "") 6 (some "de") =
      recommend id [sampleItem] "neutral" none 6 (some "de")) :=
  recommend_unsupported_filters id [sampleItem] "neutral" none 6
    (some "de") (by decide) (by decide)

theorem sumVals_bump (d : List (String × Nat)) (k : String) :
    sumVals (bump d k) = sumVals d + 1 := by
  induction d with
  | nil => rfl
  | cons p rest ih =>
    cases p with
    | mk k' v =>
      unfold bump
      split
      · simp [sumVals]
        omega
      · simp only [sumVals, List.map_cons, List.sum_cons] at ih ⊢
        omega

theorem get_stats_fold (l : List Item) :
    ∀ acc : List (String × Nat) × List (String × Nat),
      sumVals ((l.foldl (fun acc item =>
          (bump acc.1 ((pyGet item "mood").getD "neutral"),
           bump acc.2 ((pyGet item "language").getD "en"))) acc)).1 =
        sumVals acc.1 + l.length ∧
      sumVals ((l.foldl (fun acc item =>
          (bump acc.1 ((pyGet item "mood").getD "neutral"),
           bump acc.2 ((pyGet item "language").getD "en"))) acc)).2 =
        sumVals acc.2 + l.length := by
  induction l with
  | nil => intro acc; simp
  | cons a l ih =>
    intro acc
    simp only [List.foldl_cons, List.length_cons]
    have h := ih (bump acc.1 ((pyGet a "mood").getD "neutral"),
      bump acc.2 ((pyGet a "language").getD "en"))
    constructor
    · rw [h.1, sumVals_bump]
      omega
    · rw [h.2, sumVals_bump]
      omega

/-- Claim C8: for every catalog, the mood counts of `get_stats` sum to
the catalog size, and so do the language counts (each item bumps exactly
one mood bucket and one language bucket). -/
theorem get_stats_sums (catalog : List Item) :
    sumVals (get_stats catalog).1 = catalog.length ∧
    sumVals (get_stats catalog).2 = catalog.length := by
  unfold get_stats
  have h := get_stats_fold catalog ([], [])
  simpa [sumVals] using h

theorem maxSnd_cons (x a : String × Nat) (l : List (String × Nat)) :
    maxSnd x (a :: l) = maxSnd (if x.2 < a.2 then a else x) l := by
  unfold maxSnd
  rw [List.foldl_cons]
  congr 1
  split <;> omega

theorem foldl_max_init (l : List (String × Nat)) :
    ∀ m : Nat, m ≤ l.foldl (fun m p => max m p.2) m := by
  induction l with
  | nil => intro m; exact Nat.le_refl m
  | cons a l ih =>
    intro m
    rw [List.foldl_cons]
    exact Nat.le_trans (Nat.le_max_left m a.2) (ih (max m a.2))

theorem le_maxSnd (x : String × Nat) (l : List (String × Nat)) :
    x.2 ≤ maxSnd x l := foldl_max_init l x.2

theorem pyMax_cons (x a : String × Nat) (l : List (String × Nat)) :
    pyMaxBySnd x (a :: l) = pyMaxBySnd (if x.2 < a.2 then a else x) l := rfl

theorem pyMax_snd_eq_maxSnd (l : List (String × Nat)) :
    ∀ x, (pyMaxBySnd x l).2 = maxSnd x l := by
  induction l with
  | nil => intro x; rfl
  | cons a l ih =>
    intro x
    rw [pyMax_cons, maxSnd_cons]
    exact ih _

theorem find_first_max (l : List (String × Nat)) :
    ∀ x, (x :: l).find? (fun p => p.2 == maxSnd x l) =
      some (pyMaxBySnd x l) := by
  induction l with
  | nil =>
    intro x
    simp [List.find?, maxSnd, pyMaxBySnd]
  | cons a l ih =>
    intro x
    rw [maxSnd_cons, pyMax_cons]
    by_cases hxa : x.2 < a.2
    · rw [if_pos hxa]
      have hxM : x.2 ≠ maxSnd a l := by
        have h1 : a.2 ≤ maxSnd a l := le_maxSnd a l
        omega
      have hb : (x.2 == maxSnd a l) = false := by simpa using hxM
      rw [List.find?_cons, hb]
      exact ih a
    · rw [if_neg hxa]
      have hx2 : x.2 ≤ maxSnd x l := le_maxSnd x l
      have hIH := ih x
      by_cases hxM : x.2 = maxSnd x l
      · have hb : (x.2 == maxSnd x l) = true := by simpa using hxM
        rw [List.find?_cons, hb]
        rw [List.find?_cons, hb] at hIH
        exact hIH
      · have haM : a.2 ≠ maxSnd x l := by omega
        have hbx : (x.2 == maxSnd x l) = false := by simpa using hxM
        have hba : (a.2 == maxSnd x l) = false := by simpa using haM
        rw [List.find?_cons, hbx, List.find?_cons, hba]
        rw [List.find?_cons, hbx] at hIH
        exact hIH

theorem argmax_eq_spec (scores : List (String × Nat)) :
    (match scores with
     | [] => "neutral"
     | x :: rest =>
       if (pyMaxBySnd x rest).2 = 0 then "neutral" else (pyMaxBySnd x rest).1)
    =
    (let m := (scores.map Prod.snd).foldl max 0
     if m = 0 then "neutral"
     else
       match scores.find? (fun p => p.2 == m) with
       | some p => p.1
       | none => "neutral") := by
  cases scores with
  | nil => rfl
  | cons x rest =>
    have hm : (((x :: rest).map Prod.snd).foldl max 0) = maxSnd x rest := by
      simp only [List.map_cons, List.foldl_cons, maxSnd, Nat.zero_max]
      rw [List.foldl_map]
    simp only [hm, find_first_max, pyMax_snd_eq_maxSnd]

/-- Claim C6: `_lexicon_label` returns the first mood, in the keyword
table's declaration order, whose keyword-hit count over the lowercased
text is maximal (stable max, first-encountered tie-breaking), and
`neutral` when the maximal count is zero — i.e. the code agrees with
`spec_lexicon_label`, the definition written from the spec's words, on
every text and language. -/
theorem lexicon_label_is_first_argmax (text language : String) :
    lexicon_label text language = spec_lexicon_label text language := by
  unfold lexicon_label spec_lexicon_label
  exact argmax_eq_spec _

theorem recommend_eq (shuffle : List Item → List Item) (catalog : List Item)
    (mood : String) (mt : Option String) (limit : Int)
    (rl : Option String) :
    recommend shuffle catalog mood mt limit rl =
      (pySlice (shuffle (recommendFiltered catalog
          (if mood ∈ SUPPORTED_MOODS then mood else "neutral") mt rl))
        limit).mapM mkRecommendation := rfl

/-- Claim C7: whenever `recommend(mood, limit=N)` with `N ≥ 0` returns a
list (i.e. no `Recommendation(**item)` construction raised), that list
has at most `N` items, and every returned item's mood equals `mood` when
`mood` is one of the six supported moods and `"neutral"` otherwise
(unsupported moods are coerced before filtering).  `shuffle` is any
permutation, as `random.shuffle` produces. -/
theorem recommend_limit_and_mood (shuffle : List Item → List Item)
    (hsh : ∀ l : List Item, List.Perm (shuffle l) l)
    (catalog : List Item) (mood : String) (mt : Option String)
    (N : Int) (hN : 0 ≤ N) (rl : Option String)
    (recs : List Recommendation)
    (hr : recommend shuffle catalog mood mt N rl = some recs) :
    (recs.length : Int) ≤ N ∧
    ∀ r ∈ recs,
      r.mood = if mood ∈ SUPPORTED_MOODS then mood else "neutral" := by
  rw [recommend_eq] at hr
  constructor
  · have hlen := mapM_length hr
    have hple : (pySlice (shuffle (recommendFiltered catalog
        (if mood ∈ SUPPORTED_MOODS then mood else "neutral") mt rl))
        N).length ≤ N.toNat := by
      unfold pySlice
      rw [if_pos hN, List.length_take]
      exact Nat.min_le_left _ _
    rw [hlen]
    calc ((pySlice (shuffle (recommendFiltered catalog
          (if mood ∈ SUPPORTED_MOODS then mood else "neutral") mt rl))
          N).length : Int)
        ≤ (N.toNat : Int) := by exact_mod_cast hple
      _ = N := Int.toNat_of_nonneg hN
  · intro r hrmem
    rcases mapM_mem hr r hrmem with ⟨item, hitem, hmk⟩
    have h2 : item ∈ recommendFiltered catalog
        (if mood ∈ SUPPORTED_MOODS then mood else "neutral") mt rl :=
      ((hsh _).mem_iff).mp (mem_pySlice hitem)
    have h3 := (mem_recommendFiltered h2).2
    have h4 := mkRecommendation_mood hmk
    rw [h3] at h4
    exact (Option.some.inj h4).symm

/-- Witness for C7 at a concrete call: one catalog item, limit 6. -/
theorem recommend_limit_and_mood_witness :
    ((([⟨"t", "c", "song", "neutral", "en"⟩] :
        List Recommendation).length : Int) ≤ 6) ∧
    ∀ r ∈ ([⟨"t", "c", "song", "neutral", "en"⟩] : List Recommendation),
      r.mood = if "neutral" ∈ SUPPORTED_MOODS then "neutral"
               else "neutral" :=
  recommend_limit_and_mood id (fun l => List.Perm.refl l) [sampleItem]
    "neutral" none 6 (by decide) none
    [⟨"t", "c", "song", "neutral", "en"⟩] (by decide)

theorem recommend_isSome (shuffle : List Item → List Item)
    (hsh : ∀ l : List Item, List.Perm (shuffle l) l)
    (catalog : List Item)
    (hcat : ∀ item ∈ catalog, (mkRecommendation item).isSome)
    (mood : String) (mt : Option String) (limit : Int)
    (rl : Option String) :
    (recommend shuffle catalog mood mt limit rl).isSome := by
  rw [recommend_eq]
  apply mapM_isSome
  intro item hitem
  exact hcat item
    ((mem_recommendFiltered (((hsh _).mem_iff).mp (mem_pySlice hitem))).1)

/-- Counterexample to claim C3 as stated for arbitrary catalogs: with a
catalog item lacking the `title`/`creator`/`type`/`language` fields, the
`Recommendation(**item)` construction raises `TypeError`, which escapes
`analyze_and_recommend` to the caller (modelled as `none`). -/
theorem analyze_and_recommend_exception :
    analyze_and_recommend (fun _ => none) (fun _ _ => none) id
      [[("mood", "neutral")]] "" none 6 none = none := by decide

/-- Claim C3 (amended): for every catalog all of whose items are
well-formed records with exactly the fields
`{title, creator, type, mood, language}` (the shape §6 of the spec
requires of catalog records), and for every text, media type, limit and
response language, `analyze_and_recommend` terminates without an
exception and returns a well-formed `ServiceResult` whose `language` and
`prediction` fields are the detector's and classifier's outputs. -/
theorem analyze_and_recommend_total (stat : String → Option String)
    (tf : String → String → Option String)
    (shuffle : List Item → List Item)
    (hsh : ∀ l : List Item, List.Perm (shuffle l) l)
    (catalog : List Item)
    (hcat : ∀ item ∈ catalog, (mkRecommendation item).isSome)
    (text : String) (mt : Option String) (limit : Int)
    (rl : Option String) :
    ∃ res : ServiceResult,
      analyze_and_recommend stat tf shuffle catalog text mt limit rl =
        some res ∧
      res.language = detect stat text ∧
      res.prediction = predict tf text (detect stat text) := by
  have hs := recommend_isSome shuffle hsh catalog hcat
    (predict tf text (detect stat text)).mood mt limit rl
  simp only [analyze_and_recommend]
  cases hrec : recommend shuffle catalog
      (predict tf text (detect stat text)).mood mt limit rl with
  | none => rw [hrec] at hs; cases hs
  | some recs =>
    exact ⟨⟨detect stat text, predict tf text (detect stat text), recs⟩,
      rfl, rfl, rfl⟩

/-- Witness for the amended C3 at a concrete well-formed catalog. -/
theorem analyze_and_recommend_total_witness :
    ∃ res : ServiceResult,
      analyze_and_recommend (fun _ => none) (fun _ _ => none) id
        [sampleItem] "hello" none 6 none = some res ∧
      res.language = detect (fun _ => none) "hello" ∧
      res.prediction = predict (fun _ _ => none) "hello"
        (detect (fun _ => none) "hello") :=
  analyze_and_recommend_total (fun _ => none) (fun _ _ => none) id
    (fun l => List.Perm.refl l) [sampleItem] (by decide) "hello" none 6 none
